import Mathlib

/-!
# musicd2 — shallow embedding and verification of spec claims

This file embeds, in Lean 4, the parts of the musicd2 source that the
frozen claims C1–C10 are about, and settles each claim against the
embedding.

Embedding conventions:
* Rust `&str` handled character-by-character (`cue.rs`) is `List Char`;
  byte-level code (`http_util.rs`, which works on `as_bytes()`) is
  `List Nat` with every byte `< 256`.
* Rust `u32`/`i64` become `Nat`/`Int`; overflow is modelled where the
  source can overflow (`u32::from_str` rejects values ≥ 2^32).
* `f64` fields (`cue` track starts, track lengths) are modelled as `ℚ`:
  the claims under test only state the arithmetic structure of the
  computations (sums, differences, division by 75), which the rational
  model captures exactly.
* Code that can panic (slice indexing, `unwrap`) returns `Option`,
  with `none` for the panicking executions.
* SQL queries are modelled over an explicit catalog state (lists of rows
  in storage order).  Where SQLite leaves an order unspecified we model
  the concrete behaviour observed on SQLite 3.40 (compound `UNION`
  yields ascending column order with NULLs first; bare columns under
  `GROUP BY` are taken from the first row of the group in table order),
  and note it at the definition.
-/

/-! ## Generic list helpers (Rust `str::split` semantics) -/

/-- Rust `split(sep)` on a string: always at least one piece, empty pieces
kept (`"".split(c) = [""]`, `"a::b".split(':') = ["a","","b"]`). -/
def splitOnSep {α : Type} [DecidableEq α] (sep : α) : List α → List (List α)
  | [] => [[]]
  | c :: rest =>
    if c = sep then
      [] :: splitOnSep sep rest
    else
      match splitOnSep sep rest with
      | [] => [[c]]
      | r :: rs => (c :: r) :: rs

theorem splitOnSep_ne_nil {α : Type} [DecidableEq α] (sep : α) (l : List α) :
    splitOnSep sep l ≠ [] := by
  cases l with
  | nil => simp [splitOnSep]
  | cons c rest =>
    simp only [splitOnSep]
    split
    · simp
    · split <;> simp

/-- If the separator does not occur, `splitOnSep` returns the single piece. -/
theorem splitOnSep_eq_single {α : Type} [DecidableEq α] (sep : α) (l : List α)
    (h : sep ∉ l) : splitOnSep sep l = [l] := by
  induction l with
  | nil => rfl
  | cons c rest ih =>
    simp only [List.mem_cons, not_or] at h
    simp only [splitOnSep]
    rw [if_neg (fun hc => h.1 hc.symm), ih h.2]

/-! ## Cue parser (`src/cue.rs`)

`generate_commands` tokenises the sheet: newline ends a command, space
ends a token outside quotes, `"` opens/closes a quoted token, and outside
quotes only `A–Z a–z 0–9 :` are retained. -/

/-- Characters retained outside quoted strings (`cue.rs:26-31`). -/
def cueRetained (ch : Char) : Bool :=
  (decide ('A' ≤ ch) && decide (ch ≤ 'Z')) ||
  (decide ('a' ≤ ch) && decide (ch ≤ 'z')) ||
  (decide ('0' ≤ ch) && decide (ch ≤ '9')) ||
  decide (ch = ':')

/-- One step of the `generate_commands` loop: state is
(quote_delimited, current command, current token, finished commands). -/
def generateCommandsLoop :
    List Char → Bool → List (List Char) → List Char →
    List (List (List Char)) → List (List (List Char))
  | [], _, command, string, commands =>
    -- after the loop: push a non-empty token, then push the last command
    let command := if string ≠ [] then command ++ [string] else command
    commands ++ [command]
  | ch :: rest, q, command, string, commands =>
    if ch = '\n' ∨ (¬q ∧ ch = ' ') ∨ (q ∧ ch = '"') then
      let p : List (List Char) × List Char × Bool :=
        if string ≠ [] ∨ q then (command ++ [string], [], false)
        else (command, string, q)
      if ch = '\n' then
        generateCommandsLoop rest p.2.2 [] p.2.1 (commands ++ [p.1])
      else
        generateCommandsLoop rest p.2.2 p.1 p.2.1 commands
    else if ch = '"' then
      generateCommandsLoop rest true command string commands
    else if q ∨ cueRetained ch then
      generateCommandsLoop rest q command (string ++ [ch]) commands
    else
      generateCommandsLoop rest q command string commands

/-- `generate_commands` (`cue.rs:3-43`). -/
def generate_commands (text : List Char) : List (List (List Char)) :=
  generateCommandsLoop text false [] [] []

/-- `cue::Track` — `start` (an `f64` in the source) modelled as `ℚ`. -/
structure CueTrack where
  number : Nat
  title : List Char
  performer : List Char
  start : ℚ
  deriving DecidableEq, Repr

/-- `cue::File`. -/
structure CueFile where
  path : List Char
  tracks : List CueTrack
  deriving DecidableEq, Repr

/-- `cue::Cue`. -/
structure Cue where
  title : List Char
  performer : List Char
  files : List CueFile
  deriving DecidableEq, Repr

/-- Rust `u32::from_str`: optional leading `+`, one or more ASCII digits,
error (`none`) on empty digits, a non-digit, or overflow past `u32::MAX`. -/
def parse_u32 (s : List Char) : Option Nat :=
  let digits := match s with
    | '+' :: rest => rest
    | _ => s
  if digits = [] then none
  else if digits.all Char.isDigit then
    let v := digits.foldl (fun acc c => acc * 10 + (c.toNat - 48)) 0
    if v < 4294967296 then some v else none
  else none

/-- Mutable state of the `parse_cue` loop. -/
structure CueParseState where
  cue : Cue
  file : Option CueFile
  track : Option CueTrack
  deriving Repr

/-- One command of the `parse_cue` match (`cue.rs:86-156`); `instr` and
`arg` are the first two tokens (present by the `c.len() > 1` filter), and
`rest` the remaining tokens of the command. -/
def parse_cue_step (st : CueParseState) (instr arg : List Char)
    (rest : List (List Char)) : CueParseState :=
  if instr = "TITLE".toList ∧ st.file.isNone then
    { st with cue := { st.cue with title := arg } }
  else if instr = "PERFORMER".toList ∧ st.file.isNone then
    { st with cue := { st.cue with performer := arg } }
  else if instr = "TITLE".toList ∧ st.track.isSome then
    { st with track := st.track.map (fun t => { t with title := arg }) }
  else if instr = "PERFORMER".toList ∧ st.track.isSome then
    { st with track := st.track.map (fun t => { t with performer := arg }) }
  else if instr = "FILE".toList then
    { st with
      cue := { st.cue with
               files := match st.file with
                 | some f => st.cue.files ++ [f]
                 | none => st.cue.files }
      file := some { path := arg, tracks := [] }
      track := none }
  else if instr = "TRACK".toList ∧ st.file.isSome then
    { st with
      file := match st.track, st.file with
        | some t, some f => some { f with tracks := f.tracks ++ [t] }
        | _, f => f
      track := some { number := (parse_u32 arg).getD 0
                      title := st.cue.title
                      performer := st.cue.performer
                      start := 0 } }
  else if instr = "INDEX".toList ∧ st.track.isSome ∧ arg = "01".toList then
    match rest.head? with
    | some pos_str =>
      let parts := splitOnSep ':' pos_str
      if parts.length = 3 then
        let mins := ((parse_u32 (parts.getD 0 [])).getD 0 : ℚ)
        let secs := ((parse_u32 (parts.getD 1 [])).getD 0 : ℚ)
        let frames := ((parse_u32 (parts.getD 2 [])).getD 0 : ℚ)
        -- One frame is 1/75 seconds
        let start := mins * 60 + secs + frames / 75
        { st with track := st.track.map (fun t => { t with start := start }) }
      else st
    | none => st
  else st

/-- Driving loop of `parse_cue`.  The two `iter.next().unwrap()` calls of
the source are the match on `instr :: arg :: rest`; a command with fewer
than two tokens would panic, modelled as `none`. -/
def parse_cue_go (st : CueParseState) :
    List (List (List Char)) → Option CueParseState
  | [] => some st
  | cmd :: cmds =>
    match cmd with
    | instr :: arg :: rest => parse_cue_go (parse_cue_step st instr arg rest) cmds
    | _ => none

/-- Flushing of the pending track and file after the loop (`cue.rs:159-167`). -/
def parse_cue_finalize (st : CueParseState) : Cue :=
  let file := match st.track, st.file with
    | some t, some f => some { f with tracks := f.tracks ++ [t] }
    | _, f => f
  match file with
  | some f => { st.cue with files := st.cue.files ++ [f] }
  | none => st.cue

/-- `parse_cue` (`cue.rs:66-170`): tokenise, keep commands with more than
one token, fold the command match, flush.  `none` models a panic. -/
def parse_cue (text : List Char) : Option Cue :=
  let commands := generate_commands text
  let filtered := commands.filter (fun c => 1 < c.length)
  (parse_cue_go
    { cue := { title := [], performer := [], files := [] }
      file := none
      track := none } filtered).map parse_cue_finalize

/-! ## C10: totality of `parse_cue` -/

theorem parse_cue_go_isSome (cmds : List (List (List Char)))
    (st : CueParseState) (h : ∀ c ∈ cmds, 1 < c.length) :
    (parse_cue_go st cmds).isSome := by
  induction cmds generalizing st with
  | nil => rfl
  | cons cmd cmds ih =>
    have hlen : 1 < cmd.length := h cmd (List.mem_cons_self _ _)
    match cmd, hlen with
    | instr :: arg :: rest, _ =>
      exact ih (parse_cue_step st instr arg rest)
        (fun c hc => h c (List.mem_cons_of_mem _ hc))

/-- C10: `parse_cue` is total: every input string — empty input, commands
with fewer than two tokens, `TRACK` commands with unparsable numbers,
`INDEX` times that do not split into three fields, unterminated quoted
strings — yields a `Cue` value; no execution panics (`none` is never
the result). -/
theorem parse_cue_total (text : List Char) : (parse_cue text).isSome := by
  have h := parse_cue_go_isSome
    ((generate_commands text).filter (fun c => decide (1 < c.length)))
    { cue := { title := [], performer := [], files := [] }
      file := none
      track := none }
    (fun c hc => of_decide_eq_true (List.mem_filter.mp hc).2)
  unfold parse_cue
  rcases Option.isSome_iff_exists.mp h with ⟨st, hst⟩
  simp [hst]

/-! ## C9: `INDEX 01 MM:SS:FF` sets the track start to MM·60 + SS + FF/75 -/

/-- C9: in the `parse_cue` command loop, an `INDEX 01` command whose time
argument splits at `:` into exactly three fields parsing as MM, SS, FF
sets the current track's start to MM·60 + SS + FF/75 seconds. -/
theorem parse_cue_step_index (st : CueParseState) (t : CueTrack)
    (pos ms ss fs : List Char) (m s f : Nat) (rest : List (List Char))
    (htrack : st.track = some t)
    (hrest : rest.head? = some pos)
    (hsplit : splitOnSep ':' pos = [ms, ss, fs])
    (hm : parse_u32 ms = some m)
    (hs : parse_u32 ss = some s)
    (hf : parse_u32 fs = some f) :
    (parse_cue_step st "INDEX".toList "01".toList rest).track =
      some { t with start := (m : ℚ) * 60 + (s : ℚ) + (f : ℚ) / 75 } := by
  unfold parse_cue_step
  rw [if_neg (fun hc => by exact absurd hc.1 (by decide))]
  rw [if_neg (fun hc => by exact absurd hc.1 (by decide))]
  rw [if_neg (fun hc => by exact absurd hc.1 (by decide))]
  rw [if_neg (fun hc => by exact absurd hc.1 (by decide))]
  rw [if_neg (fun hc => by exact absurd hc (by decide))]
  rw [if_neg (fun hc => by exact absurd hc.1 (by decide))]
  rw [if_pos ⟨by decide, by rw [htrack]; rfl, by decide⟩]
  rw [hrest]
  simp only [hsplit, List.length_cons, List.length_nil, if_pos rfl,
    List.getD, List.get?, Option.getD_some, hm, hs, hf, htrack, Option.map_some']
  rw [if_pos trivial]

/-! ## Cue handler track construction (`src/scan.rs:540-571`) -/

/-- `index::Track` (`index.rs:42-58`); `f64` fields as `ℚ`. -/
structure IndexTrack where
  track_id : Int
  node_id : Int
  stream_index : Int
  track_index : Option Int
  start : Option ℚ
  number : Int
  title : String
  artist_id : Int
  artist_name : String
  album_id : Int
  album_name : String
  album_artist_id : Option Int
  album_artist_name : Option String
  length : ℚ
  deriving DecidableEq, Repr

/-- Rust `str::trim`: strip leading and trailing whitespace. -/
def rust_trim (s : List Char) : List Char :=
  ((s.dropWhile Char.isWhitespace).reverse.dropWhile Char.isWhitespace).reverse

/-- Virtual `Track` records built from one cue `FILE` entry
(`scan.rs:542-563`): one per cue track, `start` from the cue, `length`
initially `0`. -/
def build_cue_file_tracks (node_id stream_index : Int) (track_index : Option Int)
    (cue : Cue) (file : CueFile) : List IndexTrack :=
  file.tracks.map (fun cue_track =>
    { track_id := 0
      node_id := node_id
      stream_index := stream_index
      track_index := track_index
      number := (cue_track.number : Int)
      title := (rust_trim cue_track.title).asString
      artist_id := 0 -- Resolved later
      artist_name := (rust_trim cue_track.performer).asString
      album_id := 0 -- Resolved later
      album_name := (rust_trim cue.title).asString
      album_artist_id := none
      album_artist_name :=
        if cue.performer.length > 0 then some (rust_trim cue.performer).asString
        else none
      start := some cue_track.start
      length := 0 })

/-- The `for track in tracks.iter_mut().rev()` loop of `scan.rs:566-571`,
expressed on the reversed list: `last_start` starts as the probed master
length and becomes each track's start in turn. -/
def cueLengthsRev : ℚ → List IndexTrack → List IndexTrack
  | _, [] => []
  | last_start, t :: rest =>
    let start := t.start.getD 0
    { t with length := last_start - start } :: cueLengthsRev start rest

/-- Length assignment of `scan.rs:565-571` on the forward track list. -/
def assign_cue_lengths (file_track_length : ℚ) (tracks : List IndexTrack) :
    List IndexTrack :=
  (cueLengthsRev file_track_length tracks.reverse).reverse

/-- The virtual tracks the cue handler inserts for one `FILE` entry. -/
def cue_file_virtual_tracks (node_id stream_index : Int)
    (track_index : Option Int) (file_track_length : ℚ)
    (cue : Cue) (file : CueFile) : List IndexTrack :=
  assign_cue_lengths file_track_length
    (build_cue_file_tracks node_id stream_index track_index cue file)

theorem cueLengthsRev_length (last_start : ℚ) (l : List IndexTrack) :
    (cueLengthsRev last_start l).length = l.length := by
  induction l generalizing last_start with
  | nil => rfl
  | cons t rest ih => simp [cueLengthsRev, ih]

theorem cueLengthsRev_get (last_start : ℚ) (l : List IndexTrack)
    (i : Nat) (h : i < l.length) :
    (cueLengthsRev last_start l).get ⟨i, by rw [cueLengthsRev_length]; exact h⟩ =
      { l.get ⟨i, h⟩ with
        length :=
          (if i = 0 then last_start
           else (l.get ⟨i - 1, by omega⟩).start.getD 0)
          - (l.get ⟨i, h⟩).start.getD 0 } := by
  induction l generalizing last_start i with
  | nil => exact absurd h (by simp)
  | cons t rest ih =>
    cases i with
    | zero => rfl
    | succ j =>
      have hj : j < rest.length := by simpa using h
      have := ih (t.start.getD 0) j hj
      simp only [cueLengthsRev, List.get_cons_succ]
      rw [this]
      cases j with
      | zero => rfl
      | succ k => rfl

theorem assign_cue_lengths_length (total : ℚ) (l : List IndexTrack) :
    (assign_cue_lengths total l).length = l.length := by
  simp [assign_cue_lengths, cueLengthsRev_length]

theorem get_reverse_sub {α : Type} (l : List α) (k : Nat) (hk : k < l.length) :
    l.reverse.get ⟨l.length - 1 - k, by rw [List.length_reverse]; omega⟩ =
      l.get ⟨k, hk⟩ := by
  have h2 : l.length - 1 - (l.length - 1 - k) < l.length := by omega
  refine (List.get_reverse' l ⟨l.length - 1 - k, by rw [List.length_reverse]; omega⟩
    h2).trans ?_
  congr 1
  exact Fin.ext (by simp only []; omega)

/-- Characterisation of the length loop: entry `i` keeps all its fields
and gets `length = (next start, or the probed total for the last entry)
minus its own start`. -/
theorem assign_cue_lengths_get (total : ℚ) (l : List IndexTrack)
    (i : Nat) (h : i < l.length) :
    (assign_cue_lengths total l).get ⟨i, by rw [assign_cue_lengths_length]; exact h⟩ =
      { l.get ⟨i, h⟩ with
        length :=
          (if h2 : i + 1 < l.length then (l.get ⟨i + 1, h2⟩).start.getD 0
           else total)
          - (l.get ⟨i, h⟩).start.getD 0 } := by
  have hrl : (cueLengthsRev total l.reverse).length = l.length := by
    rw [cueLengthsRev_length, List.length_reverse]
  have hj : l.length - 1 - i < l.reverse.length := by
    rw [List.length_reverse]; omega
  have step1 : (assign_cue_lengths total l).get
      ⟨i, by rw [assign_cue_lengths_length]; exact h⟩ =
      (cueLengthsRev total l.reverse).get ⟨l.length - 1 - i, by omega⟩ := by
    show (cueLengthsRev total l.reverse).reverse.get ⟨i, _⟩ = _
    refine (List.get_reverse' (cueLengthsRev total l.reverse) ⟨i, by
      rw [List.length_reverse]; omega⟩ (by simp only []; omega)).trans ?_
    congr 1
    exact Fin.ext (by simp only []; omega)
  rw [step1]
  have step2 := cueLengthsRev_get total l.reverse (l.length - 1 - i) hj
  have hfin : (⟨l.length - 1 - i, by omega⟩ :
      Fin (cueLengthsRev total l.reverse).length) =
      ⟨l.length - 1 - i, by rw [cueLengthsRev_length]; exact hj⟩ := rfl
  rw [hfin, step2]
  have hself : l.reverse.get ⟨l.length - 1 - i, hj⟩ = l.get ⟨i, h⟩ := by
    refine Eq.trans ?_ (get_reverse_sub l i h)
    rfl
  by_cases hlast : i + 1 < l.length
  · have hne : ¬(l.length - 1 - i = 0) := by omega
    rw [if_neg hne, dif_pos hlast]
    have hnext : l.reverse.get ⟨l.length - 1 - i - 1, by omega⟩ =
        l.get ⟨i + 1, hlast⟩ := by
      refine Eq.trans ?_ (get_reverse_sub l (i + 1) hlast)
      rfl
    rw [hself, hnext]
  · have hz : l.length - 1 - i = 0 := by omega
    rw [if_pos hz, dif_neg hlast, hself]

/-! ## C3: virtual-track lengths from one cue `FILE` entry -/

theorem build_cue_file_tracks_start (node_id stream_index : Int)
    (track_index : Option Int) (cue : Cue) (file : CueFile)
    (i : Nat) (h : i < (build_cue_file_tracks node_id stream_index track_index
      cue file).length)
    (h2 : i < file.tracks.length) :
    ((build_cue_file_tracks node_id stream_index track_index cue file).get
      ⟨i, h⟩).start = some ((file.tracks.get ⟨i, h2⟩).start) := by
  simp only [build_cue_file_tracks] at h ⊢
  rw [List.get_eq_getElem, List.getElem_map]
  rfl

/-- C3: for the ordered virtual-track list built from one cue `FILE`
entry, each track's start is the cue start, each non-last track's stored
length is `start[i+1] - start[i]`, and the last track's stored length is
the probed total length of the master audio file minus its own start. -/
theorem cue_file_virtual_tracks_lengths
    (node_id stream_index : Int) (track_index : Option Int)
    (file_track_length : ℚ) (cue : Cue) (file : CueFile)
    (res : List IndexTrack)
    (hres : res = cue_file_virtual_tracks node_id stream_index track_index
      file_track_length cue file) :
    res.length = file.tracks.length ∧
    (∀ i (h : i < res.length) (h2 : i < file.tracks.length),
      (res.get ⟨i, h⟩).start = some ((file.tracks.get ⟨i, h2⟩).start)) ∧
    (∀ i (h : i + 1 < res.length),
      (res.get ⟨i, by omega⟩).length =
        (res.get ⟨i + 1, h⟩).start.getD 0 - (res.get ⟨i, by omega⟩).start.getD 0) ∧
    (∀ (h : res ≠ []),
      (res.getLast h).length = file_track_length - (res.getLast h).start.getD 0) := by
  have hblen : (build_cue_file_tracks node_id stream_index track_index
      cue file).length = file.tracks.length := by
    rw [build_cue_file_tracks, List.length_map]
  have hreslen : res.length = (build_cue_file_tracks node_id stream_index
      track_index cue file).length := by
    rw [hres, cue_file_virtual_tracks, assign_cue_lengths_length]
  have hget : ∀ i (h : i < (build_cue_file_tracks node_id stream_index
        track_index cue file).length),
      res.get ⟨i, by omega⟩ =
      { (build_cue_file_tracks node_id stream_index track_index cue file).get
          ⟨i, h⟩ with
        length :=
          (if h2 : i + 1 < (build_cue_file_tracks node_id stream_index
              track_index cue file).length then
            ((build_cue_file_tracks node_id stream_index track_index cue
              file).get ⟨i + 1, h2⟩).start.getD 0
           else file_track_length)
          - ((build_cue_file_tracks node_id stream_index track_index cue
              file).get ⟨i, h⟩).start.getD 0 } := by
    intro i h
    have e := List.get_of_eq hres ⟨i, by omega⟩
    rw [e]
    exact assign_cue_lengths_get file_track_length _ i h
  refine ⟨by omega, ?_, ?_, ?_⟩
  · intro i h h2
    have hib : i < (build_cue_file_tracks node_id stream_index track_index
      cue file).length := by omega
    rw [hget i hib]
    exact build_cue_file_tracks_start node_id stream_index track_index cue
      file i hib h2
  · intro i h
    have hib : i < (build_cue_file_tracks node_id stream_index track_index
      cue file).length := by omega
    have hib1 : i + 1 < (build_cue_file_tracks node_id stream_index
      track_index cue file).length := by omega
    rw [hget i hib, hget (i + 1) hib1]
    simp only [dif_pos hib1]
  · intro h
    have hpos : 0 < res.length := List.length_pos.mpr h
    have hlast : res.getLast h = res.get ⟨res.length - 1, by omega⟩ := by
      rw [List.getLast_eq_getElem]
      rfl
    have hidx : (⟨res.length - 1, by omega⟩ : Fin res.length) =
        ⟨(build_cue_file_tracks node_id stream_index track_index cue
          file).length - 1, by omega⟩ := by
      apply Fin.ext
      simp only []
      omega
    rw [hlast, hidx]
    have hib : (build_cue_file_tracks node_id stream_index track_index cue
      file).length - 1 < (build_cue_file_tracks node_id stream_index
      track_index cue file).length := by omega
    rw [hget _ hib]
    have hnot : ¬((build_cue_file_tracks node_id stream_index track_index cue
      file).length - 1 + 1 < (build_cue_file_tracks node_id stream_index
      track_index cue file).length) := by omega
    simp only [dif_neg hnot]

/-- Witness for C9 at a concrete command `INDEX 01 04:09:11`. -/
theorem parse_cue_step_index_witness :
    (parse_cue_step
      { cue := { title := [], performer := [], files := [] }
        file := some { path := "f.flac".toList, tracks := [] }
        track := some { number := 2, title := [], performer := [], start := 0 } }
      "INDEX".toList "01".toList ["04:09:11".toList, "AUDIO".toList]).track =
      some { number := 2, title := [], performer := [],
             start := (4 : ℚ) * 60 + (9 : ℚ) + (11 : ℚ) / 75 } :=
  parse_cue_step_index
    { cue := { title := [], performer := [], files := [] }
      file := some { path := "f.flac".toList, tracks := [] }
      track := some { number := 2, title := [], performer := [], start := 0 } }
    { number := 2, title := [], performer := [], start := 0 }
    "04:09:11".toList "04".toList "09".toList "11".toList 4 9 11
    ["04:09:11".toList, "AUDIO".toList]
    rfl rfl (by decide) (by decide) (by decide) (by decide)

/-- Concrete cue sheet data for the C3 witness (the S2 fixture of the spec:
tracks starting at 0, 90 and 300 seconds over a 600-second master). -/
def cueWitness : Cue :=
  { title := "D".toList, performer := "P".toList, files := [] }

/-- Concrete cue `FILE` entry for the C3 witness. -/
def cueFileWitness : CueFile :=
  { path := "disc.flac".toList
    tracks := [
      { number := 1, title := "a".toList, performer := "P".toList, start := 0 },
      { number := 2, title := "b".toList, performer := "P".toList, start := 90 },
      { number := 3, title := "c".toList, performer := "P".toList, start := 300 }] }

/-- Witness for C3 at the concrete fixture: the middle track's length is
the difference of consecutive starts, and the last track's length is the
master total minus its start. -/
theorem cue_file_virtual_tracks_lengths_witness :
    (((cue_file_virtual_tracks 7 3 none 600 cueWitness cueFileWitness).get
        ⟨1, by decide⟩).length =
      ((cue_file_virtual_tracks 7 3 none 600 cueWitness cueFileWitness).get
        ⟨2, by decide⟩).start.getD 0 -
      ((cue_file_virtual_tracks 7 3 none 600 cueWitness cueFileWitness).get
        ⟨1, by decide⟩).start.getD 0) ∧
    ((cue_file_virtual_tracks 7 3 none 600 cueWitness cueFileWitness).getLast
        (by decide)).length =
      600 - ((cue_file_virtual_tracks 7 3 none 600 cueWitness
        cueFileWitness).getLast (by decide)).start.getD 0 :=
  ⟨(cue_file_virtual_tracks_lengths 7 3 none 600 cueWitness cueFileWitness _
      rfl).2.2.1 1 (by decide),
   (cue_file_virtual_tracks_lengths 7 3 none 600 cueWitness cueFileWitness _
      rfl).2.2.2 (by decide)⟩

/-! ## HTTP query parsing (`src/http_util.rs`)

`HttpQuery::from` and `decode_url` work on the bytes of the query string;
we model them on `List Nat`.  In `decode_url`, the guard
`i <= bytes.len() - 3` uses wrapping `usize` subtraction (release
semantics): for `len < 3` it is always true, and the subsequent
`bytes[i+1]` / `bytes[i+2]` indexing can then run out of bounds — a
panic, modelled as `none`.  The final `String::from_utf8_lossy` is the
identity on the ASCII-range bytes all claims use and is not modelled. -/

/-- Rust `u8::is_ascii_hexdigit`. -/
def is_ascii_hexdigit (b : Nat) : Bool :=
  (decide (48 ≤ b) && decide (b ≤ 57)) ||
  (decide (65 ≤ b) && decide (b ≤ 70)) ||
  (decide (97 ≤ b) && decide (b ≤ 102))

/-- Value of one hex digit as used by `u8::from_str_radix(_, 16)`
(only applied to bytes passing `is_ascii_hexdigit`). -/
def hexVal (b : Nat) : Nat :=
  if 48 ≤ b ∧ b ≤ 57 then b - 48
  else if 65 ≤ b ∧ b ≤ 70 then b - 55
  else b - 87

/-- The `decode_url` loop (`http_util.rs:54-80`).  `totalLen` is the
length of the whole input (`bytes.len()`, fixed across the loop); the
argument list is the suffix from the current index `i`.  The guard
`i <= bytes.len() - 3` is `2 ≤ rest.length ∨ totalLen < 3` (wrapping
subtraction); when it passes with fewer than two following bytes, the
indexing `bytes[i+1]` / `bytes[i+2]` panics (`none`). -/
def decodeUrlGo (totalLen : Nat) : List Nat → Option (List Nat)
  | [] => some []
  | [b] =>
    -- one byte left: the guard can only pass when `totalLen < 3`
    -- (wrapped subtraction); `bytes[i+1]` is then out of bounds: panic.
    if b = 37 ∧ (2 ≤ ([] : List Nat).length ∨ totalLen < 3) then none
    else if b = 43 then (decodeUrlGo totalLen []).map (fun l => 32 :: l)
    else (decodeUrlGo totalLen []).map (fun l => b :: l)
  | [b, c1] =>
    -- two bytes left: the guard can only pass when `totalLen < 3`;
    -- if `bytes[i+1]` is a hex digit, `bytes[i+2]` is out of bounds: panic.
    if b = 37 ∧ (2 ≤ [c1].length ∨ totalLen < 3) then
      if is_ascii_hexdigit c1 then none
      else (decodeUrlGo totalLen [c1]).map (fun l => b :: l)
    else if b = 43 then (decodeUrlGo totalLen [c1]).map (fun l => 32 :: l)
    else (decodeUrlGo totalLen [c1]).map (fun l => b :: l)
  | b :: c1 :: c2 :: rest2 =>
    if b = 37 ∧ (2 ≤ (c1 :: c2 :: rest2).length ∨ totalLen < 3) then
      if is_ascii_hexdigit c1 then
        if is_ascii_hexdigit c2 then
          (decodeUrlGo totalLen rest2).map
            (fun l => (hexVal c1 * 16 + hexVal c2) :: l)
        else (decodeUrlGo totalLen (c1 :: c2 :: rest2)).map (fun l => b :: l)
      else (decodeUrlGo totalLen (c1 :: c2 :: rest2)).map (fun l => b :: l)
    else if b = 43 then
      (decodeUrlGo totalLen (c1 :: c2 :: rest2)).map (fun l => 32 :: l)
    else
      (decodeUrlGo totalLen (c1 :: c2 :: rest2)).map (fun l => b :: l)

/-- `HttpQuery::decode_url` (`http_util.rs:54-80`); `none` = panic. -/
def decode_url (src : List Nat) : Option (List Nat) :=
  decodeUrlGo src.length src

/-- Rust `splitn(2, sep)`: the part before the first separator, and the
remainder after it when the separator occurs. -/
def splitFirstEq (sep : Nat) : List Nat → List Nat × Option (List Nat)
  | [] => ([], none)
  | b :: rest =>
    if b = sep then ([], some rest)
    else
      let r := splitFirstEq sep rest
      (b :: r.1, r.2)

/-- `BTreeMap::insert`: replace the value of an existing key, otherwise
add the pair.  (The real map iterates in sorted key order; the claims
only look the result up by key, for which this list model agrees.) -/
def btreeInsert : List (List Nat × List Nat) → List Nat → List Nat →
    List (List Nat × List Nat)
  | [], k, v => [(k, v)]
  | (k0, v0) :: rest, k, v =>
    if k0 = k then (k0, v) :: rest
    else (k0, v0) :: btreeInsert rest k v

/-- The field loop of `HttpQuery::from` (`http_util.rs:40-49`): the key is
the part before the first `=` taken verbatim, the value is the part after
it decoded TWICE (`decode_url` of `decode_url` of it). -/
def httpQueryFromFields :
    List (List Nat) → List (List Nat × List Nat) →
    Option (List (List Nat × List Nat))
  | [], acc => some acc
  | field :: fields, acc =>
    let kv := splitFirstEq 61 field
    match decode_url (kv.2.getD []) with
    | none => none
    | some v1 =>
      match decode_url v1 with
      | none => none
      | some v2 => httpQueryFromFields fields (btreeInsert acc kv.1 v2)

/-- `HttpQuery::from` (`http_util.rs:35-52`): split on `&`, then process
each field; `none` = a panic inside `decode_url`. -/
def httpQueryFrom (s : List Nat) : Option (List (List Nat × List Nat)) :=
  httpQueryFromFields (splitOnSep 38 s) []

/-! Spec-side standard form-encoding for the C4 round-trip claim:
unreserved bytes kept, space encoded as `+`, everything else as `%HH`
with uppercase hex digits. -/

/-- Bytes that standard form-encoding leaves unchanged. -/
def unreservedByte (b : Nat) : Bool :=
  (decide (48 ≤ b) && decide (b ≤ 57)) ||
  (decide (65 ≤ b) && decide (b ≤ 90)) ||
  (decide (97 ≤ b) && decide (b ≤ 122)) ||
  decide (b = 45) || decide (b = 46) || decide (b = 95) || decide (b = 126)

/-- Uppercase hex digit for a nibble. -/
def toHexUpper (n : Nat) : Nat :=
  if n < 10 then 48 + n else 55 + n

/-- Standard form-encoding of a single byte. -/
def encodeFormByte (b : Nat) : List Nat :=
  if unreservedByte b then [b]
  else if b = 32 then [43]
  else [37, toHexUpper (b / 16), toHexUpper (b % 16)]

/-- Standard form-encoding of a byte string (spec side of C4:
"built by standard encoding"). -/
def encodeForm (l : List Nat) : List Nat :=
  l.flatMap encodeFormByte

/-! Uniform stepping lemmas for `decodeUrlGo`. -/

theorem decodeUrlGo_cons_plain (L b : Nat) (tail : List Nat)
    (hb37 : b ≠ 37) (hb43 : b ≠ 43) :
    decodeUrlGo L (b :: tail) = (decodeUrlGo L tail).map (fun l => b :: l) := by
  match tail with
  | [] =>
    simp only [decodeUrlGo]
    rw [if_neg (fun hc => hb37 hc.1), if_neg hb43]
  | [c1] =>
    simp only [decodeUrlGo]
    rw [if_neg (fun hc => hb37 hc.1), if_neg hb43]
  | c1 :: c2 :: rest2 =>
    simp only [decodeUrlGo]
    rw [if_neg (fun hc => hb37 hc.1), if_neg hb43]

theorem decodeUrlGo_cons_plus (L : Nat) (tail : List Nat) :
    decodeUrlGo L (43 :: tail) = (decodeUrlGo L tail).map (fun l => 32 :: l) := by
  match tail with
  | [] => simp [decodeUrlGo]
  | [c1] => simp [decodeUrlGo]
  | c1 :: c2 :: rest2 => simp [decodeUrlGo]

theorem decodeUrlGo_cons_escape (L c1 c2 : Nat) (rest2 : List Nat)
    (h1 : is_ascii_hexdigit c1 = true) (h2 : is_ascii_hexdigit c2 = true) :
    decodeUrlGo L (37 :: c1 :: c2 :: rest2) =
      (decodeUrlGo L rest2).map
        (fun l => (hexVal c1 * 16 + hexVal c2) :: l) := by
  simp [decodeUrlGo, h1, h2]

/-- A string without `%` and `+` decodes to itself. -/
theorem decodeUrlGo_no_escape (L : Nat) (l : List Nat)
    (h : ∀ b ∈ l, b ≠ 37 ∧ b ≠ 43) : decodeUrlGo L l = some l := by
  induction l with
  | nil => rfl
  | cons b rest ih =>
    have hb := h b (List.mem_cons_self _ _)
    rw [decodeUrlGo_cons_plain L b rest hb.1 hb.2,
      ih (fun c hc => h c (List.mem_cons_of_mem _ hc))]
    rfl

theorem unreservedByte_ne (b : Nat) (h : unreservedByte b = true) :
    b ≠ 37 ∧ b ≠ 43 ∧ b ≠ 38 ∧ b ≠ 61 := by
  unfold unreservedByte at h
  simp only [Bool.or_eq_true, Bool.and_eq_true, decide_eq_true_eq] at h
  omega

theorem toHexUpper_is_hexdigit (n : Nat) (h : n < 16) :
    is_ascii_hexdigit (toHexUpper n) = true := by
  unfold is_ascii_hexdigit toHexUpper
  simp only [Bool.or_eq_true, Bool.and_eq_true, decide_eq_true_eq]
  split <;> omega

theorem hexVal_toHexUpper (n : Nat) (h : n < 16) :
    hexVal (toHexUpper n) = n := by
  unfold hexVal toHexUpper
  by_cases h10 : n < 10
  · rw [if_pos h10, if_pos ⟨by omega, by omega⟩]
    omega
  · rw [if_neg h10, if_neg (by omega), if_pos ⟨by omega, by omega⟩]
    omega

/-- Decoding undoes the standard form-encoding, byte-string by
byte-string, with any continuation. -/
theorem decodeUrlGo_encodeForm (L : Nat) (v rest res : List Nat)
    (hv : ∀ b ∈ v, 32 ≤ b ∧ b ≤ 126)
    (hrest : decodeUrlGo L rest = some res) :
    decodeUrlGo L (encodeForm v ++ rest) = some (v ++ res) := by
  induction v with
  | nil => simpa [encodeForm] using hrest
  | cons b vs ih =>
    have hb := hv b (List.mem_cons_self _ _)
    have ihv := ih (fun c hc => hv c (List.mem_cons_of_mem _ hc))
    have henc : encodeForm (b :: vs) ++ rest =
        encodeFormByte b ++ (encodeForm vs ++ rest) := by
      simp [encodeForm, List.append_assoc]
    rw [henc]
    by_cases hu : unreservedByte b = true
    · have hne := unreservedByte_ne b hu
      rw [show encodeFormByte b = [b] from by rw [encodeFormByte, if_pos hu]]
      rw [List.cons_append, List.nil_append,
        decodeUrlGo_cons_plain L b _ hne.1 hne.2.1, ihv]
      rfl
    · by_cases h32 : b = 32
      · subst h32
        rw [show encodeFormByte 32 = [43] from by
          rw [encodeFormByte, if_neg hu, if_pos rfl]]
        rw [List.cons_append, List.nil_append, decodeUrlGo_cons_plus, ihv]
        rfl
      · rw [show encodeFormByte b =
            [37, toHexUpper (b / 16), toHexUpper (b % 16)] from by
          rw [encodeFormByte, if_neg hu, if_neg h32]]
        rw [show ([37, toHexUpper (b / 16), toHexUpper (b % 16)] :
            List Nat) ++ (encodeForm vs ++ rest) =
            37 :: toHexUpper (b / 16) :: toHexUpper (b % 16) ::
              (encodeForm vs ++ rest) from rfl]
        rw [decodeUrlGo_cons_escape L _ _ _
          (toHexUpper_is_hexdigit _ (by omega))
          (toHexUpper_is_hexdigit _ (by omega)), ihv]
        have hval : hexVal (toHexUpper (b / 16)) * 16 +
            hexVal (toHexUpper (b % 16)) = b := by
          rw [hexVal_toHexUpper _ (by omega), hexVal_toHexUpper _ (by omega)]
          omega
        rw [Option.map_some']
        rw [hval]
        rfl

theorem splitFirstEq_append (k tail : List Nat) (hk : (61 : Nat) ∉ k) :
    splitFirstEq 61 (k ++ 61 :: tail) = (k, some tail) := by
  induction k with
  | nil => simp [splitFirstEq]
  | cons b rest ih =>
    simp only [List.mem_cons, not_or] at hk
    simp only [List.cons_append, splitFirstEq, List.append_eq]
    rw [if_neg (fun h => hk.1 h.symm), ih hk.2]

theorem encodeForm_unreserved (k : List Nat)
    (h : ∀ b ∈ k, unreservedByte b = true) : encodeForm k = k := by
  induction k with
  | nil => rfl
  | cons b rest ih =>
    have hb := h b (List.mem_cons_self _ _)
    simp only [encodeForm, List.flatMap_cons] at *
    rw [show encodeFormByte b = [b] from by rw [encodeFormByte, if_pos hb]]
    rw [ih (fun c hc => h c (List.mem_cons_of_mem _ hc))]
    rfl

theorem toHexUpper_ne (n : Nat) : toHexUpper n ≠ 38 ∧ toHexUpper n ≠ 61 := by
  unfold toHexUpper
  split <;> omega

/-- No byte of an encoded string is `&` or `=`. -/
theorem encodeForm_mem_ne (v : List Nat) (c : Nat) (hc : c ∈ encodeForm v) :
    c ≠ 38 ∧ c ≠ 61 := by
  rw [encodeForm, List.mem_flatMap] at hc
  obtain ⟨b, _, hcb⟩ := hc
  unfold encodeFormByte at hcb
  by_cases hu : unreservedByte b = true
  · rw [if_pos hu] at hcb
    simp only [List.mem_singleton] at hcb
    have h2 := unreservedByte_ne b hu
    rw [hcb]
    exact ⟨h2.2.2.1, h2.2.2.2⟩
  · rw [if_neg hu] at hcb
    by_cases h32 : b = 32
    · rw [if_pos h32] at hcb
      simp only [List.mem_singleton] at hcb
      omega
    · rw [if_neg h32] at hcb
      simp only [List.mem_cons, List.mem_singleton, List.not_mem_nil,
        or_false] at hcb
      rcases hcb with h | h | h
      · omega
      · rw [h]; exact toHexUpper_ne _
      · rw [h]; exact toHexUpper_ne _

theorem decode_url_encodeForm (v : List Nat)
    (hv : ∀ b ∈ v, 32 ≤ b ∧ b ≤ 126) :
    decode_url (encodeForm v) = some v := by
  have h := decodeUrlGo_encodeForm (encodeForm v).length v [] [] hv rfl
  simpa [decode_url] using h

theorem decode_url_no_escape (src : List Nat)
    (h : ∀ b ∈ src, b ≠ 37 ∧ b ≠ 43) : decode_url src = some src :=
  decodeUrlGo_no_escape _ _ h

/-! ## C4: query-string encode/decode round trip -/

/-- C4 counterexample: keys are never URL-decoded and values are decoded
twice.  The printable-ASCII key `"a b"` encodes to `"a+b"` and parses back
as the three bytes `a + b`, not `a b`; the printable-ASCII value `"+"`
encodes to `"%2B"` and parses back as a space (the first decode yields
`"+"`, the second turns it into a space). -/
theorem httpQuery_roundtrip_counterexample :
    httpQueryFrom (encodeForm [97, 32, 98] ++ 61 :: encodeForm [99]) =
      some [([97, 43, 98], [99])] ∧
    ([97, 43, 98] : List Nat) ≠ [97, 32, 98] ∧
    httpQueryFrom (encodeForm [97] ++ 61 :: encodeForm [43]) =
      some [([97], [32])] ∧
    ([32] : List Nat) ≠ [43] := by
  refine ⟨by decide, by decide, by decide, by decide⟩

/-- C4 amended: the round trip holds for keys made only of bytes that the
standard encoding leaves unchanged (letters, digits, `-`, `.`, `_`, `~` —
keys are inserted verbatim, so any byte needing encoding breaks the trip)
and printable-ASCII values containing neither `%` nor `+` (values are
URL-decoded twice, so a decoded `%` or `+` would be consumed again by the
second pass). -/
theorem httpQuery_roundtrip_amended (k v : List Nat)
    (hk : ∀ b ∈ k, unreservedByte b = true)
    (hv : ∀ b ∈ v, 32 ≤ b ∧ b ≤ 126 ∧ b ≠ 37 ∧ b ≠ 43) :
    httpQueryFrom (encodeForm k ++ 61 :: encodeForm v) = some [(k, v)] := by
  have hkeq : encodeForm k = k := encodeForm_unreserved k hk
  have h61k : (61 : Nat) ∉ k := by
    intro hmem
    have := unreservedByte_ne 61 (hk 61 hmem)
    exact this.2.2.2 rfl
  have hno38 : (38 : Nat) ∉ encodeForm k ++ 61 :: encodeForm v := by
    intro hmem
    rcases List.mem_append.mp hmem with h | h
    · rw [hkeq] at h
      have := unreservedByte_ne 38 (hk 38 h)
      exact this.2.2.1 rfl
    · rcases List.mem_cons.mp h with h | h
      · omega
      · exact (encodeForm_mem_ne v 38 h).1 rfl
  rw [httpQueryFrom, splitOnSep_eq_single 38 _ hno38]
  show httpQueryFromFields [encodeForm k ++ 61 :: encodeForm v] [] = _
  rw [httpQueryFromFields, hkeq, splitFirstEq_append k _ h61k]
  show (match decode_url (encodeForm v) with
    | none => none
    | some v1 =>
      match decode_url v1 with
      | none => none
      | some v2 => httpQueryFromFields [] (btreeInsert [] k v2)) = _
  rw [decode_url_encodeForm v (fun b hb => ⟨(hv b hb).1, (hv b hb).2.1⟩)]
  show (match decode_url v with
    | none => none
    | some v2 => httpQueryFromFields [] (btreeInsert [] k v2)) = _
  rw [decode_url_no_escape v
    (fun b hb => ⟨(hv b hb).2.2.1, (hv b hb).2.2.2⟩)]
  rfl

/-- Witness for C4's amended round trip at key `"ab"`, value `"c d"`. -/
theorem httpQuery_roundtrip_amended_witness :
    httpQueryFrom (encodeForm [97, 98] ++ 61 :: encodeForm [99, 32, 100]) =
      some [([97, 98], [99, 32, 100])] :=
  httpQuery_roundtrip_amended [97, 98] [99, 32, 100] (by decide) (by decide)

/-! ## C5: the query parser panics on short percent inputs -/

/-- C5 failing input: `decode_url` evaluates `bytes.len() - 3` in `usize`;
on the one-byte input `"%"` this underflows (debug) or wraps and drives
`bytes[i + 1]` out of bounds (release) — a panic either way, so
`HttpQuery::from("a=%")` panics instead of returning.  `none` is the
panicking execution. -/
theorem decode_url_percent_panics :
    decode_url [37] = none ∧ httpQueryFrom [97, 61, 37] = none := by
  refine ⟨by decide, by decide⟩

/-! ## Catalog state (`src/index.rs`, `src/schema.rs`)

Tables are lists of rows in storage (rowid) order. -/

/-- A `Node` row. -/
structure DbNode where
  node_id : Int
  node_type : Int
  parent_id : Option Int
  master_id : Option Int
  name : String
  path : String
  modified : Int
  deriving DecidableEq, Repr

/-- An `Album` row. -/
structure DbAlbum where
  album_id : Int
  name : String
  artist_id : Option Int
  artist_name : Option String
  image_id : Option Int
  deriving DecidableEq, Repr

/-- The catalog tables the claims touch; `Track` rows are `IndexTrack`. -/
structure Catalog where
  nodes : List DbNode
  tracks : List IndexTrack
  albums : List DbAlbum
  deriving Repr

/-! ## C1: `find_album` (`index.rs:573-611`)

The first query joins
`Node AS node ON node.node_id = ?` and then
`Node AS other_node ON node.parent_id = node.parent_id`.
The `ON` condition compares `node.parent_id` WITH ITSELF: under SQL
three-valued logic it holds iff `node.parent_id` is not NULL, and it does
not constrain `other_node` at all, so `other_node` ranges over every node
and the "same directory" restriction announced by the source comment is
not enforced.  (When several albums match, SQLite returns a first row
chosen by its query plan; the model takes the first matching album in
table order, which agrees with SQLite on the single-match inputs used
here.) -/
def find_album (cat : Catalog) (track_node_id : Int) (album_name : String) :
    Option DbAlbum :=
  -- Search the same directory (sic — see above)
  match cat.albums.find? (fun album =>
    decide (album.name = album_name) &&
    cat.nodes.any (fun node =>
      decide (node.node_id = track_node_id) &&
      node.parent_id.isSome &&
      cat.nodes.any (fun other_node =>
        cat.tracks.any (fun track =>
          decide (track.node_id = other_node.node_id) &&
          decide (track.album_id = album.album_id))))) with
  | some a => some a
  | none =>
    -- See if there's an unused album
    cat.albums.find? (fun album =>
      decide (album.name = album_name) &&
      cat.tracks.all (fun track => decide (track.album_id ≠ album.album_id)))

/-- Claim side of C1(a): the album has a track whose node lies in the same
directory (same `parent_id`) as the node `track_node_id`. -/
def albumHasTrackInSameDir (cat : Catalog) (albumId trackNodeId : Int) : Bool :=
  cat.tracks.any (fun t =>
    decide (t.album_id = albumId) &&
    cat.nodes.any (fun n =>
      decide (n.node_id = t.node_id) &&
      cat.nodes.any (fun m =>
        decide (m.node_id = trackNodeId) &&
        decide (n.parent_id = m.parent_id))))

/-- Claim side of C1(b): the album has no tracks at all. -/
def albumHasNoTracks (cat : Catalog) (albumId : Int) : Bool :=
  cat.tracks.all (fun t => decide (t.album_id ≠ albumId))

/-- Concrete catalog refuting C1: two separate directories (node 1 with
file 2, node 3 with file 4); album 10 `"A"` has its only track on file 2. -/
def catalogC1 : Catalog :=
  { nodes := [
      { node_id := 1, node_type := 1, parent_id := none, master_id := none
        name := "dir1", path := "root/dir1", modified := 0 },
      { node_id := 2, node_type := 2, parent_id := some 1, master_id := none
        name := "f1.flac", path := "root/dir1/f1.flac", modified := 0 },
      { node_id := 3, node_type := 1, parent_id := none, master_id := none
        name := "dir2", path := "root/dir2", modified := 0 },
      { node_id := 4, node_type := 2, parent_id := some 3, master_id := none
        name := "f2.flac", path := "root/dir2/f2.flac", modified := 0 }]
    tracks := [
      { track_id := 100, node_id := 2, stream_index := 0, track_index := none
        start := none, number := 1, title := "t", artist_id := 1
        artist_name := "X", album_id := 10, album_name := "A"
        album_artist_id := none, album_artist_name := none, length := 0 }]
    albums := [
      { album_id := 10, name := "A", artist_id := none, artist_name := none
        image_id := none }] }

/-- C1: `find_album(4, "A")` returns album 10 although neither claim
condition holds — album 10 has no track in node 4's directory (condition
(a)) and it does have tracks (condition (b)); the claim requires `none`.
The `ON node.parent_id = node.parent_id` tautology (intended:
`other_node.parent_id = node.parent_id`, per the source comment "Search
the same directory") lets a track in ANY directory match. -/
theorem find_album_same_directory_bug :
    find_album catalogC1 4 "A" =
      some { album_id := 10, name := "A", artist_id := none
             artist_name := none, image_id := none } ∧
    albumHasTrackInSameDir catalogC1 10 4 = false ∧
    albumHasNoTracks catalogC1 10 = false := by
  refine ⟨by decide, by decide, by decide⟩

/-! ## C2: `process_node_updates`, album-artist update (`index.rs:661-697`)

The statement is
`UPDATE Album SET (artist_id, artist_name) = (SELECT id, name FROM
(arm1 UNION arm2) WHERE id IS NOT NULL LIMIT 1) WHERE Album.album_id IN
(tracks under parent)` where

* arm1 groups the album's tracks by `(album_artist_id, album_artist_name)`
  and selects those pairs;
* arm2 groups the album's tracks by the SAME `(album_artist_id,
  album_artist_name)` columns but selects the bare `(artist_id,
  artist_name)` columns — one arbitrary row per group (SQLite takes a row
  of the group; observed: the first in table order);
* the inner `ORDER BY count(...) DESC` clauses sit in subqueries feeding a
  compound `UNION`, which discards them: SQLite emits the deduplicated
  union in ascending `(id, name)` order with NULLs first.

So the first non-NULL candidate in ascending order is assigned — not the
most frequent one. -/

/-- SQL `NULLS FIRST` ascending order on an optional text column. -/
def optStrLe : Option String → Option String → Prop
  | none, _ => True
  | some _, none => False
  | some s, some t => s ≤ t

instance optStrLe_dec : ∀ a b, Decidable (optStrLe a b)
  | none, _ => isTrue trivial
  | some _, none => isFalse (fun h => h)
  | some s, some t => inferInstanceAs (Decidable (s ≤ t))

theorem optStrLe_total (a b : Option String) : optStrLe a b ∨ optStrLe b a := by
  match a, b with
  | none, _ => exact Or.inl trivial
  | some _, none => exact Or.inr trivial
  | some s, some t => exact le_total s t

theorem optStrLe_trans (a b c : Option String)
    (h1 : optStrLe a b) (h2 : optStrLe b c) : optStrLe a c := by
  match a, b, c with
  | none, _, _ => exact trivial
  | some _, none, _ => exact absurd h1 (fun h => h)
  | some _, some _, none => exact absurd h2 (fun h => h)
  | some s, some t, some u => exact le_trans h1 h2

/-- The ascending `(id, name)` order (NULLs first in each column) in which
SQLite emits a deduplicated compound `UNION`. -/
def sqlPairLe : (Option Int × Option String) → (Option Int × Option String) → Prop
  | (none, s1), (none, s2) => optStrLe s1 s2
  | (none, _), (some _, _) => True
  | (some _, _), (none, _) => False
  | (some x, s1), (some y, s2) => x < y ∨ (x = y ∧ optStrLe s1 s2)

instance sqlPairLe_dec : ∀ a b, Decidable (sqlPairLe a b)
  | (none, s1), (none, s2) => inferInstanceAs (Decidable (optStrLe s1 s2))
  | (none, _), (some _, _) => isTrue trivial
  | (some _, _), (none, _) => isFalse (fun h => h)
  | (some x, s1), (some y, s2) =>
    inferInstanceAs (Decidable (x < y ∨ (x = y ∧ optStrLe s1 s2)))

instance : IsTotal (Option Int × Option String) sqlPairLe where
  total a b := by
    match a, b with
    | (none, s1), (none, s2) => exact optStrLe_total s1 s2
    | (none, _), (some _, _) => exact Or.inl trivial
    | (some _, _), (none, _) => exact Or.inr trivial
    | (some x, s1), (some y, s2) =>
      rcases lt_trichotomy x y with h | h | h
      · exact Or.inl (Or.inl h)
      · rcases optStrLe_total s1 s2 with hs | hs
        · exact Or.inl (Or.inr ⟨h, hs⟩)
        · exact Or.inr (Or.inr ⟨h.symm, hs⟩)
      · exact Or.inr (Or.inl h)

instance : IsTrans (Option Int × Option String) sqlPairLe where
  trans a b c h1 h2 := by
    match a, b, c with
    | (none, s1), (none, s2), (none, s3) =>
      exact optStrLe_trans s1 s2 s3 h1 h2
    | (none, _), (none, _), (some _, _) => exact trivial
    | (none, _), (some _, _), (none, _) => exact absurd h2 (fun h => h)
    | (none, _), (some _, _), (some _, _) => exact trivial
    | (some _, _), (none, _), _ => exact absurd h1 (fun h => h)
    | (some _, _), (some _, _), (none, _) => exact absurd h2 (fun h => h)
    | (some x, s1), (some y, s2), (some z, s3) =>
      rcases h1 with h1 | ⟨h1, hs1⟩
      · rcases h2 with h2 | ⟨h2, _⟩
        · exact Or.inl (lt_trans h1 h2)
        · exact Or.inl (h2 ▸ h1)
      · rcases h2 with h2 | ⟨h2, hs2⟩
        · exact Or.inl (h1 ▸ h2)
        · exact Or.inr ⟨h1.trans h2, optStrLe_trans s1 s2 s3 hs1 hs2⟩

/-- The album's tracks (`WHERE Track.album_id = Album.album_id`). -/
def tracksOfAlbum (cat : Catalog) (albumId : Int) : List IndexTrack :=
  cat.tracks.filter (fun t => decide (t.album_id = albumId))

/-- arm1: the distinct `(album_artist_id, album_artist_name)` pairs of the
album's tracks (the `GROUP BY` keys). -/
def albumArtistPairs (cat : Catalog) (albumId : Int) :
    List (Option Int × Option String) :=
  ((tracksOfAlbum cat albumId).map
    (fun t => (t.album_artist_id, t.album_artist_name))).dedup

/-- arm2: for each `(album_artist_id, album_artist_name)` group, the bare
`(artist_id, artist_name)` of one row of the group (the first in table
order, as observed on SQLite 3.40; `artist_id`/`artist_name` are NOT NULL
columns, hence `some`). -/
def artistPairsByAlbumArtistGroup (cat : Catalog) (albumId : Int) :
    List (Option Int × Option String) :=
  let ts := tracksOfAlbum cat albumId
  (albumArtistPairs cat albumId).map (fun g =>
    match ts.find? (fun t =>
      decide ((t.album_artist_id, t.album_artist_name) = g)) with
    | some t => ((some t.artist_id : Option Int),
                 (some t.artist_name : Option String))
    | none => (none, none))

/-- The deduplicated union of both arms in the order SQLite emits it. -/
def unionCandidates (cat : Catalog) (albumId : Int) :
    List (Option Int × Option String) :=
  List.insertionSort sqlPairLe
    ((albumArtistPairs cat albumId ++
      artistPairsByAlbumArtistGroup cat albumId).dedup)

/-- The scalar subquery: first candidate with non-NULL `id`
(`WHERE id IS NOT NULL LIMIT 1`); `none` = empty result (both columns are
then set to NULL). -/
def chooseAlbumArtist (cat : Catalog) (albumId : Int) :
    Option (Int × Option String) :=
  match (unionCandidates cat albumId).find? (fun c => c.1.isSome) with
  | some (some i, n) => some (i, n)
  | _ => none

/-- `Album.album_id IN (SELECT Track.album_id FROM Track INNER JOIN Node
ON Node.parent_id = ? WHERE Track.node_id = Node.node_id)`. -/
def albumAffected (cat : Catalog) (parentId albumId : Int) : Bool :=
  cat.tracks.any (fun t =>
    decide (t.album_id = albumId) &&
    cat.nodes.any (fun n =>
      decide (n.parent_id = some parentId) &&
      decide (t.node_id = n.node_id)))

/-- The first `UPDATE` of `process_node_updates` (`index.rs:661-697`):
re-derive `(artist_id, artist_name)` of every album with tracks under
`parentId`. -/
def process_node_updates_artists (cat : Catalog) (parentId : Int) : Catalog :=
  { cat with
    albums := cat.albums.map (fun album =>
      if albumAffected cat parentId album.album_id then
        match chooseAlbumArtist cat album.album_id with
        | some (i, n) => { album with artist_id := some i, artist_name := n }
        | none => { album with artist_id := none, artist_name := none }
      else album) }

/-- Claim side of C2: number of the album's tracks under `parentId` whose
`(album_artist_id, album_artist_name)` equals the given pair. -/
def albumArtistPairCount (cat : Catalog) (parentId albumId : Int)
    (p : Int × Option String) : Nat :=
  (cat.tracks.filter (fun t =>
    decide (t.album_id = albumId) &&
    decide (t.album_artist_id = some p.1) &&
    decide (t.album_artist_name = p.2) &&
    cat.nodes.any (fun n =>
      decide (n.parent_id = some parentId) &&
      decide (t.node_id = n.node_id)))).length

/-- Concrete catalog refuting C2: one directory (node 1) holding files
2, 3, 4 with one track each in album 10; the album-artist pairs are
`(6, "B")`, `(6, "B")`, `(5, "A")` (most frequent: `(6, "B")`), and all
three tracks have artist `(1, "X")`. -/
def catalogC2 : Catalog :=
  { nodes := [
      { node_id := 1, node_type := 1, parent_id := none, master_id := none
        name := "dir", path := "root/dir", modified := 0 },
      { node_id := 2, node_type := 2, parent_id := some 1, master_id := none
        name := "f1.flac", path := "root/dir/f1.flac", modified := 0 },
      { node_id := 3, node_type := 2, parent_id := some 1, master_id := none
        name := "f2.flac", path := "root/dir/f2.flac", modified := 0 },
      { node_id := 4, node_type := 2, parent_id := some 1, master_id := none
        name := "f3.flac", path := "root/dir/f3.flac", modified := 0 }]
    tracks := [
      { track_id := 100, node_id := 2, stream_index := 0, track_index := none
        start := none, number := 1, title := "t1", artist_id := 1
        artist_name := "X", album_id := 10, album_name := "A"
        album_artist_id := some 6, album_artist_name := some "B", length := 0 },
      { track_id := 101, node_id := 3, stream_index := 0, track_index := none
        start := none, number := 2, title := "t2", artist_id := 1
        artist_name := "X", album_id := 10, album_name := "A"
        album_artist_id := some 6, album_artist_name := some "B", length := 0 },
      { track_id := 102, node_id := 4, stream_index := 0, track_index := none
        start := none, number := 3, title := "t3", artist_id := 1
        artist_name := "X", album_id := 10, album_name := "A"
        album_artist_id := some 5, album_artist_name := some "A", length := 0 }]
    albums := [
      { album_id := 10, name := "A", artist_id := none, artist_name := none
        image_id := none }] }

/-- C2 counterexample: the most frequent album-artist pair of album 10's
tracks under node 1 is `(6, "B")` (count 2, against 1 for `(5, "A")` and
0 for `(1, "X")`), yet the update assigns `(1, "X")` — the UNION discards
the inner `ORDER BY count(...) DESC` and the first non-NULL candidate in
ascending order wins. -/
theorem process_node_updates_artist_counterexample :
    (process_node_updates_artists catalogC2 1).albums =
      [{ album_id := 10, name := "A", artist_id := some 1
         artist_name := some "X", image_id := none }] ∧
    albumArtistPairCount catalogC2 1 10 (6, some "B") = 2 ∧
    albumArtistPairCount catalogC2 1 10 (5, some "A") = 1 ∧
    albumArtistPairCount catalogC2 1 10 (1, some "X") = 0 := by
  refine ⟨by decide, by decide, by decide, by decide⟩

instance : IsRefl (Option Int × Option String) sqlPairLe where
  refl a := by
    match a with
    | (none, none) => exact trivial
    | (none, some s) => exact le_refl s
    | (some x, none) => exact Or.inr ⟨rfl, trivial⟩
    | (some x, some s) => exact Or.inr ⟨rfl, le_refl s⟩

/-- In a `Pairwise r` list, `find?` returns an element `r`-below every
other element satisfying the predicate. -/
theorem find?_pairwise_min {α : Type} (r : α → α → Prop) [IsRefl α r]
    (p : α → Bool) (l : List α) (hp : l.Pairwise r) (x : α)
    (hfind : l.find? p = some x) :
    ∀ y ∈ l, p y = true → r x y := by
  induction l with
  | nil => simp at hfind
  | cons a tail ih =>
    rcases List.pairwise_cons.mp hp with ⟨ha, htail⟩
    by_cases hpa : p a = true
    · rw [List.find?_cons_of_pos _ hpa] at hfind
      injection hfind with hx
      subst hx
      intro y hy _
      rcases List.mem_cons.mp hy with h | h
      · rw [h]; exact refl_of r _
      · exact ha y h
    · rw [List.find?_cons_of_neg _ hpa] at hfind
      intro y hy hpy
      rcases List.mem_cons.mp hy with h | h
      · rw [h] at hpy; exact absurd hpy hpa
      · exact ih htail hfind y h hpy

/-- If the album has at least one track, arm2 supplies a non-NULL
candidate, so the scalar subquery is non-empty. -/
theorem chooseAlbumArtist_ne_none (cat : Catalog) (albumId : Int)
    (t0 : IndexTrack) (ht0 : t0 ∈ tracksOfAlbum cat albumId) :
    (chooseAlbumArtist cat albumId).isSome = true := by
  have hpair : (t0.album_artist_id, t0.album_artist_name) ∈
      albumArtistPairs cat albumId := by
    rw [albumArtistPairs, List.mem_dedup]
    exact List.mem_map_of_mem _ ht0
  have harm2 : ∃ c ∈ artistPairsByAlbumArtistGroup cat albumId,
      c.1.isSome = true := by
    rw [artistPairsByAlbumArtistGroup]
    have hfind : ((tracksOfAlbum cat albumId).find? (fun t =>
        decide ((t.album_artist_id, t.album_artist_name) =
          (t0.album_artist_id, t0.album_artist_name)))).isSome = true := by
      rw [List.find?_isSome]
      exact ⟨t0, ht0, by simp⟩
    obtain ⟨t1, ht1⟩ := Option.isSome_iff_exists.mp hfind
    refine ⟨((some t1.artist_id : Option Int),
      (some t1.artist_name : Option String)), ?_, rfl⟩
    refine List.mem_map.mpr ⟨(t0.album_artist_id, t0.album_artist_name),
      hpair, ?_⟩
    rw [ht1]
  obtain ⟨c, hc, hcs⟩ := harm2
  have hcu : c ∈ unionCandidates cat albumId := by
    rw [unionCandidates, List.mem_insertionSort, List.mem_dedup]
    exact List.mem_append_right _ hc
  have hfs : ((unionCandidates cat albumId).find?
      (fun c => c.1.isSome)).isSome = true := by
    rw [List.find?_isSome]
    exact ⟨c, hcu, hcs⟩
  obtain ⟨c2, hc2⟩ := Option.isSome_iff_exists.mp hfs
  rw [chooseAlbumArtist, hc2]
  have := List.find?_some hc2
  match c2, this with
  | (some i, n), _ => rfl

/-- A successful `chooseAlbumArtist` is the `find?` over the sorted
candidates. -/
theorem chooseAlbumArtist_find (cat : Catalog) (albumId : Int)
    (i : Int) (n : Option String)
    (h : chooseAlbumArtist cat albumId = some (i, n)) :
    (unionCandidates cat albumId).find? (fun c => c.1.isSome) =
      some ((some i : Option Int), n) := by
  rw [chooseAlbumArtist] at h
  rcases hc : (unionCandidates cat albumId).find? (fun c => c.1.isSome)
    with _ | c
  · rw [hc] at h; exact absurd h (by simp)
  · rw [hc] at h
    have hps := List.find?_some hc
    match c, hps, hc with
    | (some j, m), _, hc =>
      simp only [Option.some.injEq] at h
      have hj : j = i := congrArg Prod.fst h
      have hm : m = n := congrArg Prod.snd h
      rw [← hj, ← hm]
      exact hc

/-- C2 amended: after the update, an affected album's `(artist_id,
artist_name)` is the LEAST non-NULL candidate in ascending `(id, name)`
order — candidates being the distinct `(album_artist_id,
album_artist_name)` pairs of ALL the album's tracks together with, for
each such pair, the `(artist_id, artist_name)` of one track carrying it —
not the most frequent pair; both fields become NULL exactly when the
album has no tracks at all.  The assigned pair always belongs to some
track of the album. -/
theorem process_node_updates_artist_amended (cat : Catalog) (parentId : Int)
    (a : DbAlbum) (ha : a ∈ cat.albums)
    (haff : albumAffected cat parentId a.album_id = true) :
    ∃ a2 ∈ (process_node_updates_artists cat parentId).albums,
      a2.album_id = a.album_id ∧ a2.name = a.name ∧
      ((a2.artist_id = none ∧ a2.artist_name = none ∧
        tracksOfAlbum cat a.album_id = []) ∨
       (∃ i, a2.artist_id = some i ∧
         (∃ t ∈ cat.tracks, t.album_id = a.album_id ∧
           ((t.album_artist_id = some i ∧
             t.album_artist_name = a2.artist_name) ∨
            (some t.artist_id = (some i : Option Int) ∧
             some t.artist_name = a2.artist_name))) ∧
         (∀ c ∈ albumArtistPairs cat a.album_id ++
             artistPairsByAlbumArtistGroup cat a.album_id,
           c.1.isSome = true → sqlPairLe (some i, a2.artist_name) c))) := by
  refine ⟨(if albumAffected cat parentId a.album_id then
      match chooseAlbumArtist cat a.album_id with
      | some (i, n) => { a with artist_id := some i, artist_name := n }
      | none => { a with artist_id := none, artist_name := none }
    else a), ?_, ?_⟩
  · exact List.mem_map_of_mem _ ha
  · rw [if_pos haff]
    cases hchoose : chooseAlbumArtist cat a.album_id with
    | none =>
      refine ⟨rfl, rfl, Or.inl ⟨rfl, rfl, ?_⟩⟩
      by_contra hne
      obtain ⟨t0, ht0⟩ := List.exists_mem_of_ne_nil _ hne
      have := chooseAlbumArtist_ne_none cat a.album_id t0 ht0
      rw [hchoose] at this
      exact absurd this (by decide)
    | some p =>
      obtain ⟨i, n⟩ := p
      have hfind := chooseAlbumArtist_find cat a.album_id i n hchoose
      refine ⟨rfl, rfl, Or.inr ⟨i, rfl, ?_, ?_⟩⟩
      · -- the assigned pair comes from a track of the album
        have hcmem : ((some i : Option Int), n) ∈
            albumArtistPairs cat a.album_id ++
              artistPairsByAlbumArtistGroup cat a.album_id := by
          have := List.mem_of_find?_eq_some hfind
          rw [unionCandidates, List.mem_insertionSort, List.mem_dedup] at this
          exact this
        rcases List.mem_append.mp hcmem with h | h
        · rw [albumArtistPairs, List.mem_dedup, List.mem_map] at h
          obtain ⟨t, ht, hteq⟩ := h
          have htc := List.mem_filter.mp ht
          refine ⟨t, htc.1, of_decide_eq_true htc.2, Or.inl ?_⟩
          exact ⟨congrArg Prod.fst hteq, congrArg Prod.snd hteq⟩
        · rw [artistPairsByAlbumArtistGroup, List.mem_map] at h
          obtain ⟨g, _, hgeq⟩ := h
          rcases hft : (tracksOfAlbum cat a.album_id).find? (fun t =>
            decide ((t.album_artist_id, t.album_artist_name) = g)) with _ | t
          · rw [hft] at hgeq
            exact absurd (congrArg Prod.fst hgeq) (by simp)
          · rw [hft] at hgeq
            have htmem := List.mem_of_find?_eq_some hft
            have htc := List.mem_filter.mp htmem
            refine ⟨t, htc.1, of_decide_eq_true htc.2, Or.inr ?_⟩
            exact ⟨congrArg Prod.fst hgeq, congrArg Prod.snd hgeq⟩
      · -- minimality among the non-NULL candidates
        intro c hcmem hcs
        have hsorted : (unionCandidates cat a.album_id).Pairwise sqlPairLe :=
          List.sorted_insertionSort sqlPairLe _
        have hcu : c ∈ unionCandidates cat a.album_id := by
          rw [unionCandidates, List.mem_insertionSort, List.mem_dedup]
          exact hcmem
        exact find?_pairwise_min sqlPairLe _ _ hsorted _ hfind c hcu hcs

/-- The single album row of `catalogC2`. -/
def albumC2 : DbAlbum :=
  { album_id := 10, name := "A", artist_id := none, artist_name := none
    image_id := none }

/-- Witness for C2's amended theorem at the concrete catalog. -/
theorem process_node_updates_artist_amended_witness :
    ∃ a2 ∈ (process_node_updates_artists catalogC2 1).albums,
      a2.album_id = albumC2.album_id ∧ a2.name = albumC2.name ∧
      ((a2.artist_id = none ∧ a2.artist_name = none ∧
        tracksOfAlbum catalogC2 albumC2.album_id = []) ∨
       (∃ i, a2.artist_id = some i ∧
         (∃ t ∈ catalogC2.tracks, t.album_id = albumC2.album_id ∧
           ((t.album_artist_id = some i ∧
             t.album_artist_name = a2.artist_name) ∨
            (some t.artist_id = (some i : Option Int) ∧
             some t.artist_name = a2.artist_name))) ∧
         (∀ c ∈ albumArtistPairs catalogC2 albumC2.album_id ++
             artistPairsByAlbumArtistGroup catalogC2 albumC2.album_id,
           c.1.isSome = true → sqlPairLe (some i, a2.artist_name) c))) :=
  process_node_updates_artist_amended catalogC2 1 albumC2 (by decide) (by decide)

/-! ## C6: thumbnail cache (`src/cache.rs`, `SqliteCache::set_blob`)

Rows of the `Cache` table in storage (rowid) order; `INSERT OR REPLACE`
deletes any row with the key and appends a fresh row (new rowid).  The
eviction loop re-reads `SELECT SUM(size)`; on an EMPTY table that returns
NULL, which the `i64` read turns into an error (`none`).  `DELETE ...
WHERE rowid = (SELECT rowid FROM cache ORDER BY last_access ASC LIMIT 1)`
removes the first row in storage order among those with the minimal
`last_access`. -/

/-- A `Cache` row (key, byte size, last-access second). -/
structure CacheEntry where
  key : String
  size : Nat
  last_access : Int
  deriving DecidableEq, Repr

/-- Cache table state, rows in storage order. -/
structure CacheState where
  entries : List CacheEntry
  deriving DecidableEq, Repr

/-- `INSERT OR REPLACE INTO cache (key, value, size, last_access)`:
drop the conflicting row, append the new one. -/
def cacheInsertReplace (st : CacheState) (key : String) (size : Nat)
    (now : Int) : CacheState :=
  { entries := st.entries.filter (fun e => decide (e.key ≠ key)) ++
      [{ key := key, size := size, last_access := now }] }

/-- `SELECT SUM(size) FROM cache` on a non-empty table. -/
def sumSizes (st : CacheState) : Nat :=
  (st.entries.map (fun e => e.size)).sum

/-- Delete the first row in storage order whose `last_access` is minimal
(`ORDER BY last_access ASC LIMIT 1`). -/
def removeOldest : List CacheEntry → List CacheEntry
  | [] => []
  | e :: rest =>
    if rest.all (fun e2 => decide (e.last_access ≤ e2.last_access)) then rest
    else e :: removeOldest rest

/-- The `loop` of `set_blob` (`cache.rs:118-138`), with explicit fuel so
the definition stays structurally recursive and executable; `set_blob`
supplies `entries.length + 1` fuel, which `evict_loop_fuel_irrelevant`
below shows is always enough, so the fuel never alters the semantics.
`none` models the error of reading the NULL `SUM(size)` of an empty
table as an `i64`. -/
def evict_loop : Nat → Nat → CacheState → Option CacheState
  | 0, _, _ => none
  | fuel + 1, max_size, st =>
    if st.entries = [] then none
    else if sumSizes st ≤ max_size then some st
    else evict_loop fuel max_size { entries := removeOldest st.entries }

/-- `SqliteCache::set_blob` (`cache.rs:107-141`), for a cache created with
`max_size`: insert-or-replace, then evict while the total size exceeds
the maximum. -/
def set_blob (max_size : Nat) (st : CacheState) (key : String) (size : Nat)
    (now : Int) : Option CacheState :=
  let st2 := cacheInsertReplace st key size now
  evict_loop (st2.entries.length + 1) max_size st2

theorem removeOldest_length (l : List CacheEntry) (h : l ≠ []) :
    (removeOldest l).length + 1 = l.length := by
  induction l with
  | nil => exact absurd rfl h
  | cons e rest ih =>
    rw [removeOldest]
    by_cases hall : rest.all (fun e2 => decide (e.last_access ≤ e2.last_access)) = true
    · rw [if_pos hall]; rfl
    · rw [if_neg hall]
      have hrest : rest ≠ [] := by
        intro hr
        rw [hr] at hall
        exact hall rfl
      simp only [List.length_cons]
      rw [← ih hrest]

theorem removeOldest_sublist (l : List CacheEntry) :
    (removeOldest l).Sublist l := by
  induction l with
  | nil => exact List.Sublist.refl _
  | cons e rest ih =>
    rw [removeOldest]
    by_cases hall : rest.all (fun e2 => decide (e.last_access ≤ e2.last_access)) = true
    · rw [if_pos hall]; exact List.sublist_cons_self e rest
    · rw [if_neg hall]; exact List.Sublist.cons₂ e ih

/-- The element dropped by `removeOldest` has the minimal `last_access`
of the list. -/
theorem removeOldest_dropped_min (l : List CacheEntry) (e : CacheEntry)
    (hmem : e ∈ l) (hdrop : e ∉ removeOldest l) :
    ∀ e2 ∈ l, e.last_access ≤ e2.last_access := by
  induction l with
  | nil => exact absurd hmem (by simp)
  | cons a rest ih =>
    rw [removeOldest] at hdrop
    by_cases hall : rest.all (fun e2 => decide (a.last_access ≤ e2.last_access)) = true
    · rw [if_pos hall] at hdrop
      have hea : e = a := by
        rcases List.mem_cons.mp hmem with h | h
        · exact h
        · exact absurd h hdrop
      subst hea
      intro e2 he2
      rcases List.mem_cons.mp he2 with h | h
      · rw [h]
      · exact of_decide_eq_true (List.all_eq_true.mp hall e2 h)
    · rw [if_neg hall] at hdrop
      have hne : e ≠ a := fun h => hdrop (h ▸ List.mem_cons_self _ _)
      have herest : e ∈ rest := by
        rcases List.mem_cons.mp hmem with h | h
        · exact absurd h hne
        · exact h
      have hdrop2 : e ∉ removeOldest rest :=
        fun h => hdrop (List.mem_cons_of_mem _ h)
      have hle := ih herest hdrop2
      -- `a` is not minimal: some b in rest is strictly older
      have hb : ∃ b ∈ rest, ¬(a.last_access ≤ b.last_access) := by
        by_contra hc
        push_neg at hc
        exact hall (List.all_eq_true.mpr
          (fun b hbm => decide_eq_true (hc b hbm)))
      obtain ⟨b, hbm, hba⟩ := hb
      intro e2 he2
      rcases List.mem_cons.mp he2 with h | h
      · rw [h]
        have h1 := hle b hbm
        omega
      · exact hle e2 h

theorem evict_loop_spec (fuel : Nat) : ∀ (max_size : Nat) (st st2 : CacheState),
    evict_loop fuel max_size st = some st2 →
    sumSizes st2 ≤ max_size ∧ st2.entries.Sublist st.entries ∧
    (∀ e ∈ st.entries, e ∉ st2.entries →
      ∀ e2 ∈ st2.entries, e.last_access ≤ e2.last_access) := by
  induction fuel with
  | zero => intro _ _ _ h; exact absurd h (by simp [evict_loop])
  | succ fuel ih =>
    intro max_size st st2 h
    rw [evict_loop] at h
    by_cases hnil : st.entries = []
    · rw [if_pos hnil] at h; exact absurd h (by simp)
    · rw [if_neg hnil] at h
      by_cases hle : sumSizes st ≤ max_size
      · rw [if_pos hle] at h
        injection h with h
        subst h
        exact ⟨hle, List.Sublist.refl _,
          fun e he hne => absurd he hne⟩
      · rw [if_neg hle] at h
        obtain ⟨h1, h2, h3⟩ := ih max_size _ st2 h
        have hsub : st2.entries.Sublist st.entries :=
          h2.trans (removeOldest_sublist st.entries)
        refine ⟨h1, hsub, ?_⟩
        intro e he hne e2 he2
        by_cases hin : e ∈ removeOldest st.entries
        · exact h3 e hin hne e2 he2
        · have hmin := removeOldest_dropped_min st.entries e he hin
          exact hmin e2 (hsub.subset he2)

/-- The fuel `set_blob` passes is semantically inert: any fuel strictly
above the table length gives the same result. -/
theorem evict_loop_fuel_irrelevant (f1 : Nat) : ∀ (f2 max_size : Nat)
    (st : CacheState), st.entries.length < f1 → st.entries.length < f2 →
    evict_loop f1 max_size st = evict_loop f2 max_size st := by
  induction f1 with
  | zero => intro _ _ _ h1 _; exact absurd h1 (by omega)
  | succ f1 ih =>
    intro f2 max_size st h1 h2
    match f2, h2 with
    | f2 + 1, h2 =>
      rw [evict_loop, evict_loop]
      by_cases hnil : st.entries = []
      · rw [if_pos hnil, if_pos hnil]
      · rw [if_neg hnil, if_neg hnil]
        by_cases hle : sumSizes st ≤ max_size
        · rw [if_pos hle, if_pos hle]
        · rw [if_neg hle, if_neg hle]
          have hlen := removeOldest_length st.entries hnil
          exact ih f2 max_size _ (by simp only []; omega)
            (by simp only []; omega)

/-- C6: every successful `set_blob` leaves the total cached size within
the configured maximum; the surviving rows are a subsequence of the
post-insert table, and every evicted row's `last_access` is at most that
of every surviving row (evictions take the oldest first, ties broken by
storage order inside `removeOldest`). -/
theorem set_blob_size_bound (max_size : Nat) (st : CacheState) (key : String)
    (size : Nat) (now : Int) (st2 : CacheState)
    (h : set_blob max_size st key size now = some st2) :
    sumSizes st2 ≤ max_size ∧
    st2.entries.Sublist (cacheInsertReplace st key size now).entries ∧
    (∀ e ∈ (cacheInsertReplace st key size now).entries, e ∉ st2.entries →
      ∀ e2 ∈ st2.entries, e.last_access ≤ e2.last_access) :=
  evict_loop_spec _ max_size (cacheInsertReplace st key size now) st2 h

/-- Initial cache table for the C6 witness. -/
def cacheStateW : CacheState :=
  { entries := [{ key := "k1", size := 60, last_access := 5 },
                { key := "k2", size := 50, last_access := 6 }] }

/-- Witness for C6: inserting a 50-byte blob into a 100-byte cache holding
60+50 bytes evicts the oldest row and lands within the bound. -/
theorem set_blob_size_bound_witness :
    sumSizes { entries := [{ key := "k2", size := 50, last_access := 6 },
        { key := "k3", size := 50, last_access := 7 }] } ≤ 100 ∧
    (CacheState.entries { entries := [{ key := "k2", size := 50, last_access := 6 },
        { key := "k3", size := 50, last_access := 7 }] }).Sublist
      (cacheInsertReplace cacheStateW "k3" 50 7).entries ∧
    (∀ e ∈ (cacheInsertReplace cacheStateW "k3" 50 7).entries,
      e ∉ (CacheState.entries { entries := [{ key := "k2", size := 50, last_access := 6 },
          { key := "k3", size := 50, last_access := 7 }] }) →
      ∀ e2 ∈ (CacheState.entries { entries := [{ key := "k2", size := 50, last_access := 6 },
          { key := "k3", size := 50, last_access := 7 }] }),
        e.last_access ≤ e2.last_access) :=
  set_blob_size_bound 100 cacheStateW "k3" 50 7
    { entries := [{ key := "k2", size := 50, last_access := 6 },
                  { key := "k3", size := 50, last_access := 7 }] } (by decide)

/-! ## C7: request routing and the password gate (`src/http_api.rs:94-127`)

`process_request` parses the query string and dispatches on
`(method, path)`.  The configured password (`main.rs`, `--password`,
"Authentication password, empty disables authentication") is carried in
the `Musicd` state but NEVER consulted: no handler or dispatch branch
reads it, `parse_cookies` has no caller, and no `/api/auth` endpoint
exists, so no request path can produce a 401. -/

/-- The dispatch outcomes of `process_request`: run an endpoint handler,
or the 404 fallback.  (The source has no 401 outcome at all.) -/
inductive RouteResult where
  | musicd
  | audio_stream
  | image_file
  | track_lyrics
  | nodes
  | tracks
  | artists
  | albums
  | images
  | share
  | notFound
  deriving DecidableEq, Repr

/-- The per-process configuration relevant here (`main.rs:38`):
the `--password` flag.  It is stored but never read back. -/
structure MusicdConfig where
  password : String
  deriving DecidableEq, Repr

/-- An incoming request as the router sees it: method, path, and the
`Cookie` pairs the (uncalled) `parse_cookies` would produce. -/
structure ApiHttpRequest where
  method : String
  path : String
  cookies : List (String × String)
  deriving DecidableEq, Repr

/-- The `match (method, path)` of `process_request`
(`http_api.rs:106-121`); neither `config.password` nor `req.cookies` is
inspected on any branch. -/
def process_request (_config : MusicdConfig) (req : ApiHttpRequest) :
    RouteResult :=
  if req.method = "GET" ∧ req.path = "/api/musicd" then RouteResult.musicd
  else if req.method = "GET" ∧ req.path = "/api/audio_stream" then
    RouteResult.audio_stream
  else if req.method = "GET" ∧ req.path = "/api/image_file" then
    RouteResult.image_file
  else if req.method = "GET" ∧ req.path = "/api/track_lyrics" then
    RouteResult.track_lyrics
  else if req.method = "GET" ∧ req.path = "/api/nodes" then RouteResult.nodes
  else if req.method = "GET" ∧ req.path = "/api/tracks" then RouteResult.tracks
  else if req.method = "GET" ∧ req.path = "/api/artists" then
    RouteResult.artists
  else if req.method = "GET" ∧ req.path = "/api/albums" then
    RouteResult.albums
  else if req.method = "GET" ∧ req.path = "/api/images" then
    RouteResult.images
  else if req.method = "GET" ∧ req.path = "/share" then RouteResult.share
  else RouteResult.notFound

/-- C7: the password gate is absent.  For EVERY configured password
(including non-empty ones) and EVERY cookie list (including one without
any `musicd2-auth` cookie), a `GET /api/tracks` request is dispatched
straight to the tracks handler — never rejected with 401.  The claim
requires a 401 rejection when a non-empty password is configured and the
cookie is missing. -/
theorem process_request_no_auth_gate (password : String)
    (cookies : List (String × String)) :
    process_request { password := password }
      { method := "GET", path := "/api/tracks", cookies := cookies } =
      RouteResult.tracks := by
  rfl

/-! ## C8: query-layer filter construction (`src/query.rs`)

`QueryOptions` accumulates WHERE clauses and bound values.
`bind_filter_str` (`query.rs:57-61`) pushes the clause and the supplied
value VERBATIM — no `%value%` wrapping; only the `search` parameters wrap
their value.  `bind_filter_i64` binds an equality with the parsed
integer. -/

/-- A bound SQL parameter value. -/
inductive SqlValue where
  | int (n : Int)
  | text (s : String)
  deriving DecidableEq, Repr

/-- `QueryOptions` (`query.rs:11-17`). -/
structure SqlQueryOptions where
  clauses : List String
  values : List SqlValue
  order_string : Option String
  limit : Option Int
  offset : Option Int
  deriving DecidableEq, Repr

/-- `QueryOptions::new`. -/
def SqlQueryOptions.new : SqlQueryOptions :=
  { clauses := [], values := [], order_string := none, limit := none
    offset := none }

/-- `QueryOptions::filter`. -/
def qoFilter (opts : SqlQueryOptions) (clause : String) : SqlQueryOptions :=
  { opts with clauses := opts.clauses ++ [clause] }

/-- `QueryOptions::filter_value`. -/
def qoFilterValue (opts : SqlQueryOptions) (clause : String)
    (value : SqlValue) : SqlQueryOptions :=
  { opts with clauses := opts.clauses ++ [clause]
              values := opts.values ++ [value] }

/-- `QueryOptions::filter_values`. -/
def qoFilterValues (opts : SqlQueryOptions) (clause : String)
    (vals : List SqlValue) : SqlQueryOptions :=
  { opts with clauses := opts.clauses ++ [clause]
              values := opts.values ++ vals }

/-- The parsed query parameters as the layer reads them (`HttpQuery`
lookup by key). -/
def qGetStr (q : List (String × String)) (key : String) : Option String :=
  (q.find? (fun p => decide (p.1 = key))).map (fun p => p.2)

/-- Rust `i64::from_str`: optional sign, one or more digits, within the
`i64` range. -/
def parse_i64 (s : String) : Option Int :=
  let chars := s.toList
  let p : Bool × List Char := match chars with
    | '-' :: rest => (true, rest)
    | '+' :: rest => (false, rest)
    | _ => (false, chars)
  if p.2 = [] then none
  else if p.2.all Char.isDigit then
    let v : Int := (p.2.foldl (fun acc c => acc * 10 + (c.toNat - 48)) 0 : Nat)
    let v := if p.1 then -v else v
    if -9223372036854775808 ≤ v ∧ v ≤ 9223372036854775807 then some v
    else none
  else none

/-- `HttpQuery::get_i64` as the query layer uses it. -/
def qGetI64 (q : List (String × String)) (key : String) : Option Int :=
  match qGetStr q key with
  | some s => parse_i64 s
  | none => none

/-- `QueryOptions::bind_filter_i64` (`query.rs:51-55`). -/
def bind_filter_i64 (opts : SqlQueryOptions) (q : List (String × String))
    (key clause : String) : SqlQueryOptions :=
  match qGetI64 q key with
  | some v => qoFilterValue opts clause (SqlValue.int v)
  | none => opts

/-- `QueryOptions::bind_filter_str` (`query.rs:57-61`): note the value is
bound verbatim. -/
def bind_filter_str (opts : SqlQueryOptions) (q : List (String × String))
    (key clause : String) : SqlQueryOptions :=
  match qGetStr q key with
  | some v => qoFilterValue opts clause (SqlValue.text v)
  | none => opts

/-- `QueryOptions::bind_range`. -/
def bind_range (opts : SqlQueryOptions) (q : List (String × String)) :
    SqlQueryOptions :=
  let opts := match qGetI64 q "limit" with
    | some v => { opts with limit := some v }
    | none => opts
  match qGetI64 q "offset" with
  | some v => { opts with offset := some v }
  | none => opts

/-- Filter construction of `query_tracks` (`query.rs:276-307`). -/
def query_tracks_options (q : List (String × String)) : SqlQueryOptions :=
  let opts := SqlQueryOptions.new
  let opts := bind_filter_i64 opts q "track_id" "Track.track_id = ?"
  let opts := bind_filter_i64 opts q "node_id" "Track.node_id = ?"
  let opts := bind_filter_i64 opts q "number" "Track.number = ?"
  let opts := bind_filter_str opts q "title" "Track.title LIKE ? COLLATE NOCASE"
  let opts := bind_filter_i64 opts q "artist_id" "Track.artist_id = ?"
  let opts := bind_filter_str opts q "artist_name"
    "Track.artist_name LIKE ? COLLATE NOCASE"
  let opts := bind_filter_i64 opts q "album_id" "Track.album_id = ?"
  let opts := bind_filter_str opts q "album_name"
    "Track.album_name LIKE ? COLLATE NOCASE"
  let opts := match qGetStr q "search" with
    | some s => qoFilterValues opts
        "(Track.title LIKE ? OR Track.artist_name LIKE ? OR Track.album_name LIKE ?)"
        [SqlValue.text ("%" ++ s ++ "%"), SqlValue.text ("%" ++ s ++ "%"),
         SqlValue.text ("%" ++ s ++ "%")]
    | none => opts
  let opts := { opts with
    order_string := some "Track.album_name, Track.number, Track.title" }
  bind_range opts q

/-- Filter construction of `query_artists` (`query.rs:366-378`). -/
def query_artists_options (q : List (String × String)) : SqlQueryOptions :=
  let opts := SqlQueryOptions.new
  let opts := bind_filter_i64 opts q "artist_id" "Artist.artist_id = ?"
  let opts := bind_filter_str opts q "name" "Artist.name LIKE ? COLLATE NOCASE"
  let opts := bind_filter_str opts q "search" "Artist.name LIKE ? COLLATE NOCASE"
  let opts := { opts with order_string := some "Artist.name" }
  bind_range opts q

/-- Filter construction of `query_albums` (`query.rs:416-441`). -/
def query_albums_options (q : List (String × String)) : SqlQueryOptions :=
  let opts := SqlQueryOptions.new
  let opts := bind_filter_i64 opts q "album_id" "Album.album_id = ?"
  let opts := bind_filter_str opts q "name" "Album.name LIKE ? COLLATE NOCASE"
  let opts := bind_filter_i64 opts q "artist_id" "Album.artist_id = ?"
  let opts := bind_filter_str opts q "artist_name"
    "Album.artist_name LIKE ? COLLATE NOCASE"
  let opts := match qGetStr q "search" with
    | some s => qoFilterValues opts
        "(Album.name LIKE ? OR Album.artist_name LIKE ?)"
        [SqlValue.text ("%" ++ s ++ "%"), SqlValue.text ("%" ++ s ++ "%")]
    | none => opts
  let opts := { opts with order_string := some "Album.artist_name, Album.name" }
  bind_range opts q

/-- Filter construction of `query_images` (`query.rs:482-493`): the
`description` string filter is an exact `=` comparison, not a `LIKE`. -/
def query_images_options (q : List (String × String)) : SqlQueryOptions :=
  let opts := SqlQueryOptions.new
  let opts := bind_filter_i64 opts q "image_id" "Image.image_id = ?"
  let opts := bind_filter_i64 opts q "node_id" "Image.node_id = ?"
  let opts := bind_filter_str opts q "description" "Image.description = ?"
  let opts := bind_filter_i64 opts q "album_id"
    "(SELECT album_id FROM AlbumImage WHERE AlbumImage.album_id = ? AND AlbumImage.image_id = Image.image_id LIMIT 1) IS NOT NULL"
  bind_range opts q

/-- C8 counterexample: the `title` filter of `/api/tracks` binds the
supplied value `"T"` verbatim — not `"%T%"` — so a string filter is NOT
the claimed `%value%` substring match (it is an exact case-insensitive
LIKE unless the caller supplies wildcards). -/
theorem query_filter_wrap_counterexample :
    query_tracks_options [("title", "T")] =
      { clauses := ["Track.title LIKE ? COLLATE NOCASE"]
        values := [SqlValue.text "T"]
        order_string := some "Track.album_name, Track.number, Track.title"
        limit := none, offset := none } ∧
    SqlValue.text "T" ≠ SqlValue.text "%T%" := by
  refine ⟨by decide, by decide⟩

/-- C8 amended: across the list endpoints, each string filter parameter
is bound VERBATIM into a case-insensitive `LIKE` (no `%value%` wrapping)
— except `/api/images`' `description`, which is an exact `=` — only the
`search` parameters wrap the value as `%value%`, and each integer filter
parameter is an equality comparison. -/
theorem query_filters_amended :
    (∀ v, query_tracks_options [("title", v)] =
      { clauses := ["Track.title LIKE ? COLLATE NOCASE"]
        values := [SqlValue.text v]
        order_string := some "Track.album_name, Track.number, Track.title"
        limit := none, offset := none }) ∧
    (∀ v, query_tracks_options [("artist_name", v)] =
      { clauses := ["Track.artist_name LIKE ? COLLATE NOCASE"]
        values := [SqlValue.text v]
        order_string := some "Track.album_name, Track.number, Track.title"
        limit := none, offset := none }) ∧
    (∀ v, query_tracks_options [("album_name", v)] =
      { clauses := ["Track.album_name LIKE ? COLLATE NOCASE"]
        values := [SqlValue.text v]
        order_string := some "Track.album_name, Track.number, Track.title"
        limit := none, offset := none }) ∧
    (∀ v, query_artists_options [("name", v)] =
      { clauses := ["Artist.name LIKE ? COLLATE NOCASE"]
        values := [SqlValue.text v]
        order_string := some "Artist.name"
        limit := none, offset := none }) ∧
    (∀ v, query_albums_options [("name", v)] =
      { clauses := ["Album.name LIKE ? COLLATE NOCASE"]
        values := [SqlValue.text v]
        order_string := some "Album.artist_name, Album.name"
        limit := none, offset := none }) ∧
    (∀ v, query_albums_options [("artist_name", v)] =
      { clauses := ["Album.artist_name LIKE ? COLLATE NOCASE"]
        values := [SqlValue.text v]
        order_string := some "Album.artist_name, Album.name"
        limit := none, offset := none }) ∧
    (∀ v, query_images_options [("description", v)] =
      { clauses := ["Image.description = ?"]
        values := [SqlValue.text v]
        order_string := none, limit := none, offset := none }) ∧
    (∀ s, query_tracks_options [("search", s)] =
      { clauses :=
          ["(Track.title LIKE ? OR Track.artist_name LIKE ? OR Track.album_name LIKE ?)"]
        values := [SqlValue.text ("%" ++ s ++ "%"),
                   SqlValue.text ("%" ++ s ++ "%"),
                   SqlValue.text ("%" ++ s ++ "%")]
        order_string := some "Track.album_name, Track.number, Track.title"
        limit := none, offset := none }) ∧
    (∀ v n, parse_i64 v = some n →
      query_tracks_options [("track_id", v)] =
        { clauses := ["Track.track_id = ?"]
          values := [SqlValue.int n]
          order_string := some "Track.album_name, Track.number, Track.title"
          limit := none, offset := none }) := by
  refine ⟨fun v => rfl, fun v => rfl, fun v => rfl, fun v => rfl, fun v => rfl,
    fun v => rfl, fun v => rfl, fun s => rfl, fun v n h => ?_⟩
  simp [query_tracks_options, bind_filter_i64, bind_filter_str, bind_range,
    qGetI64, qGetStr, h, qoFilterValue, SqlQueryOptions.new]

/-- Witness for C8's amended integer-filter clause: `track_id=7` binds the
equality with the integer 7. -/
theorem query_filters_amended_witness :
    query_tracks_options [("track_id", "7")] =
      { clauses := ["Track.track_id = ?"]
        values := [SqlValue.int 7]
        order_string := some "Track.album_name, Track.number, Track.title"
        limit := none, offset := none } :=
  query_filters_amended.2.2.2.2.2.2.2.2 "7" 7 (by decide)
